import Mathlib

/-!
Verification development for the dataset-ingestion pipeline in
`scripts/process_dataset.py`: content chunking (tabular and unstructured
text), the rate-limited embedding batcher, the embedding aggregator, and
the `process_dataset` orchestrator with its persistence calls.

Modelling conventions:
* Python strings are `List Char`; Python floats are modelled by `ℚ`
  (all arithmetic the pipeline performs — word counts, the throttle
  formula, element-wise means — is exact at the inputs the claims use).
* External collaborators (HTTP download, file parsing, the OpenAI
  embeddings endpoint, the Supabase datastore) are modelled as
  environment-supplied results: each remote call either returns a value
  or raises, which we embed as `Except`.
* Raised Python exceptions are `Except.error`; the `try/except` in
  `process_dataset` turns the raised error into a logged value.
* Side effects that the claims talk about (the predictive rate-limit
  sleep, each provider request, each datastore write) are recorded in
  explicit event traces.
-/

/-- Error kinds a run can raise, following §7 of the design notes.
`indexError` models the `IndexError` that the attach loop
`batch[j]["embedding"] = e` would raise if the provider returned more
embeddings than the batch has chunks.  `typeError` models the
unconditional `TypeError` raised by `insert_rows_into_supabase`'s
success log line, which concatenates a `str` with `response.count`
(an `Optional[int]`). -/
inductive PErr where
  | downloadFailure
  | unsupportedFileType (ext : String)
  | embeddingProviderFailure
  | persistenceFailure
  | indexError
  | typeError
deriving DecidableEq

/-- `MAX_TOKENS = 8191` from the source. -/
def MAX_TOKENS : Nat := 8191

/-- `OPENAI_EMBEDDING_MODEL = "text-embedding-3-small"` from the source. -/
def OPENAI_EMBEDDING_MODEL : String := "text-embedding-3-small"

/-- Python `s.split()` (no separator argument): split on runs of
whitespace and drop the empty pieces.  ASCII whitespace stands in for
Python's whitespace set. -/
def pySplit (s : List Char) : List (List Char) :=
  (s.splitOnP (fun c => c.isWhitespace)).filter (fun w => w ≠ [])

/-- `len(content.split())`: the whitespace-delimited word count the
batcher uses as its token-cost estimate. -/
def wordCount (s : List Char) : Nat :=
  (pySplit s).length

/-- A chunk dict as built by the chunkers:
`{"dataset_id": ..., "content": ..., "metadata": ...}`.  The only
metadata shapes the modelled paths build are `{chunk_start, chunk_end}`
(the batched CSV path) and `{}` (the PDF and text paths), so metadata is
an optional half-open row range. -/
structure Chunk where
  dataset_id : String
  content : List Char
  metadata : Option (Nat × Nat)
deriving DecidableEq

/-- A row record as upserted into `dataset_rows`. -/
structure RowRec where
  dataset_id : String
  content : List Char
  embedding : List ℚ
  metadata : Option (Nat × Nat)
deriving DecidableEq

/-- The `schema` value handed to the datastore: `none` for the PDF/text
paths (`schema = None`), otherwise the list of `(name, dtype)` fields. -/
abbrev SchemaVal := Option (List (List Char × List Char))

/-- The `tags` value handed to the datastore: the list of tag names. -/
abbrev TagsVal := List (List Char)

/-- A parsed tabular file: column `(name, dtype)` pairs and rows of
cells aligned with the columns; `none` cells are the `NaN` cells that
`pd.notna` filters out. -/
structure DataFrame where
  columns : List (List Char × List Char)
  rows : List (List (Option (List Char)))

/-- The downloaded file as the orchestrator sees it: its (lowercased)
extension, its tabular parse (used on the `.csv` branch) and its text
parse (used on the `.pdf`/`.md`/`.txt` branches).  Download and
format-specific parsing are outside the specified core, so the
environment supplies both parses. -/
structure SourceFile where
  ext : String
  df : DataFrame
  text : List Char

/-- Python `range(start, stop, step)` for a non-negative step, by its
standard closed form: the `k`-th element is `start + k*step` and there
are `⌈(stop-start)/step⌉` elements.  (`range` with `step = 0` raises in
Python; the modelled call sites all pass a positive step.) -/
def pyRange (start stop step : Nat) : List Nat :=
  (List.range ((stop - start + step - 1) / step)).map (fun k => start + k * step)

/-- `aggregate_embeddings`: `np.mean(embeddings, axis=0).tolist()` on a
rectangular list of vectors — component `j` of the result is the sum of
the `j`-th components divided by the number of vectors.  On the empty
list numpy emits a warning and yields `nan` rather than raising; the
model likewise does not fail and returns the degenerate empty vector. -/
def aggregate_embeddings (embeddings : List (List ℚ)) : List ℚ :=
  (List.range (embeddings.headD []).length).map (fun j =>
    (embeddings.map (fun e => e.getD j 0)).sum / (embeddings.length : ℚ))

/-- An embedding provider: `client.embeddings.create(input=..., model=...)`,
returning one vector per input string or raising. -/
abbrev Provider := String → List (List Char) → Except PErr (List (List ℚ))

/-- `generate_embeddings_for_chunks`: the per-chunk-without-batching
path.  Each chunk longer than `MAX_TOKENS` is truncated to its first
`MAX_TOKENS` characters, then submitted individually; any provider
exception is re-raised.  The second component records the content
strings actually submitted, in order.  An empty `response.data` would
make `response.data[0]` raise `IndexError`, modelled as `indexError`. -/
def generate_embeddings_for_chunks (provider : Provider) :
    List (List Char) → Except PErr (List (List ℚ)) × List (List Char)
  | [] => (Except.ok [], [])
  | chunk :: rest =>
    let chunk' := if chunk.length > MAX_TOKENS then chunk.take MAX_TOKENS else chunk
    match provider OPENAI_EMBEDDING_MODEL [chunk'] with
    | Except.error e => (Except.error e, [chunk'])
    | Except.ok [] => (Except.error PErr.embeddingProviderFailure, [chunk'])
    | Except.ok (e :: _) =>
      match generate_embeddings_for_chunks provider rest with
      | (Except.error err, subs) => (Except.error err, chunk' :: subs)
      | (Except.ok es, subs) => (Except.ok (e :: es), chunk' :: subs)

/-- Observable events of one `generate_embeddings_with_rate_limit` run:
the predictive throttle sleep (with its duration in seconds) and each
provider request (with the exact content strings submitted). -/
inductive BatchEvent where
  | sleep (seconds : ℚ)
  | call (inputs : List (List Char))
deriving DecidableEq

/-- Body of the `for i in range(0, len(chunks), batch_size)` loop of
`generate_embeddings_with_rate_limit`, one iteration per index:
slice the batch, estimate its token cost as the summed word counts,
sleep `(token_count / tpm_limit) * 60` seconds when the estimate
exceeds `tpm_limit`, submit the batch, and append the returned
embeddings; any exception is re-raised, aborting the remaining
batches. -/
def grwlGo (provider : Provider) (chunks : List Chunk)
    (batch_size tpm_limit : Nat) (mdl : String) :
    List Nat → Except PErr (List (List ℚ)) × List BatchEvent
  | [] => (Except.ok [], [])
  | i :: restIdx =>
    let batch := (chunks.drop i).take batch_size
    let batch_contents := batch.map Chunk.content
    let token_count := (batch_contents.map wordCount).sum
    let pre : List BatchEvent :=
      if token_count > tpm_limit then
        [BatchEvent.sleep ((token_count : ℚ) / (tpm_limit : ℚ) * 60)]
      else []
    match provider mdl batch_contents with
    | Except.error e => (Except.error e, pre ++ [BatchEvent.call batch_contents])
    | Except.ok batch_embeddings =>
      if batch.length < batch_embeddings.length then
        (Except.error PErr.indexError, pre ++ [BatchEvent.call batch_contents])
      else
        match grwlGo provider chunks batch_size tpm_limit mdl restIdx with
        | (Except.error e, ev) =>
            (Except.error e, pre ++ BatchEvent.call batch_contents :: ev)
        | (Except.ok restEmb, ev) =>
            (Except.ok (batch_embeddings ++ restEmb),
             pre ++ BatchEvent.call batch_contents :: ev)

/-- `generate_embeddings_with_rate_limit(chunks, batch_size, model,
tpm_limit)`: run the batching loop over `range(0, len(chunks),
batch_size)`, returning the accumulated embeddings (or the first raised
error) together with the run's event trace. -/
def generate_embeddings_with_rate_limit (provider : Provider)
    (chunks : List Chunk) (batch_size : Nat) (mdl : String) (tpm_limit : Nat) :
    Except PErr (List (List ℚ)) × List BatchEvent :=
  grwlGo provider chunks batch_size tpm_limit mdl
    (pyRange 0 chunks.length batch_size)

/-- The batch partition the loop induces: `chunks[i:i+batch_size]` for
each loop index `i`. -/
def batches (batch_size : Nat) (l : List Chunk) : List (List Chunk) :=
  (pyRange 0 l.length batch_size).map (fun i => (l.drop i).take batch_size)

/-- The spec's description of what one batch contributes to the trace:
a sleep of `(estimated_cost / tpm_limit) * 60` seconds exactly when the
summed word-count estimate exceeds `tpm_limit`, followed by the provider
call carrying the batch's content strings. -/
def perBatchTrace (tpm_limit : Nat) (b : List Chunk) : List BatchEvent :=
  (if ((b.map Chunk.content).map wordCount).sum > tpm_limit then
    [BatchEvent.sleep (((((b.map Chunk.content).map wordCount).sum : ℚ)) / (tpm_limit : ℚ) * 60)]
   else []) ++ [BatchEvent.call (b.map Chunk.content)]

/-- The content strings a `call` event submitted, if the event is a
provider call. -/
def callInputs : BatchEvent → Option (List (List Char))
  | BatchEvent.call xs => some xs
  | BatchEvent.sleep _ => none

/-- One rendered row of the batched CSV path:
`" ".join(f"{col}: {row[col]}" for col in columns if pd.notna(row[col]))`. -/
def renderRow (columns : List (List Char × List Char))
    (row : List (Option (List Char))) : List Char :=
  List.intercalate [' ']
    ((columns.zip row).filterMap (fun cv =>
      cv.2.map (fun v => cv.1.1 ++ [':', ' '] ++ v)))

/-- Step 1 of `process_csv_with_batching`: for each
`i in range(0, len(dataframe), chunk_size)` build the chunk whose
content renders rows `i .. i+chunk_size` joined by newlines, with
metadata `{"chunk_start": i, "chunk_end": min(i + chunk_size, len(dataframe))}`. -/
def csv_chunks (dataset_id : String) (df : DataFrame) (chunk_size : Nat) :
    List Chunk :=
  (pyRange 0 df.rows.length chunk_size).map (fun i =>
    { dataset_id := dataset_id
      content := List.intercalate ['\n']
        (((df.rows.drop i).take chunk_size).map (renderRow df.columns))
      metadata := some (i, min (i + chunk_size) df.rows.length) })

/-- Result quadruple of a processing path:
`(rows, aggregated_embedding, schema, tags)`. -/
abbrev PipeOut := List RowRec × List ℚ × SchemaVal × TagsVal

/-- `process_csv_with_batching`: extract schema and tags from the
dataframe's columns, build the row-window chunks, embed them through the
rate-limited batcher, and aggregate.  The returned rows are the chunks
with their embeddings attached (the source mutates the chunk dicts in
place and returns them). -/
def process_csv_with_batching (provider : Provider) (df : DataFrame)
    (dataset_id : String) (chunk_size batch_size tpm_limit : Nat) :
    Except PErr PipeOut :=
  let schema : SchemaVal := some df.columns
  let tags : TagsVal := df.columns.map Prod.fst
  let chunks := csv_chunks dataset_id df chunk_size
  match (generate_embeddings_with_rate_limit provider chunks batch_size
      OPENAI_EMBEDDING_MODEL tpm_limit).1 with
  | Except.error e => Except.error e
  | Except.ok embeddings =>
      Except.ok
        (chunks.zipWith
          (fun c e => RowRec.mk c.dataset_id c.content e c.metadata) embeddings,
         aggregate_embeddings embeddings, schema, tags)

/-- The unstructured-text chunker used by `process_pdf` and
`process_text_or_markdown`:
`[content[i:i + chunk_size] for i in range(0, len(content), chunk_size)]`. -/
def sliceText (content : List Char) (chunk_size : Nat) : List (List Char) :=
  (pyRange 0 content.length chunk_size).map
    (fun i => (content.drop i).take chunk_size)

/-- `process_pdf`: slice the extracted text into fixed-size character
windows, embed each window through the per-chunk path, build the row
records (empty metadata, `schema = None`, `tags = []`), and aggregate.
Text extraction itself is out of scope: `text` is the already-joined
page text. -/
def process_pdf (provider : Provider) (text : List Char)
    (dataset_id : String) (chunk_size : Nat) : Except PErr PipeOut :=
  let chunks := sliceText text chunk_size
  match (generate_embeddings_for_chunks provider chunks).1 with
  | Except.error e => Except.error e
  | Except.ok embeddings =>
      Except.ok
        (chunks.zipWith (fun c e => RowRec.mk dataset_id c e none) embeddings,
         aggregate_embeddings embeddings, none, [])

/-- `process_text_or_markdown`: identical pipeline to `process_pdf`,
with the file's text in place of the extracted PDF text. -/
def process_text_or_markdown (provider : Provider) (text : List Char)
    (dataset_id : String) (chunk_size : Nat) : Except PErr PipeOut :=
  let chunks := sliceText text chunk_size
  match (generate_embeddings_for_chunks provider chunks).1 with
  | Except.error e => Except.error e
  | Except.ok embeddings =>
      Except.ok
        (chunks.zipWith (fun c e => RowRec.mk dataset_id c e none) embeddings,
         aggregate_embeddings embeddings, none, [])

/-- Datastore writes a run can commit. -/
inductive StoreEvent where
  | datasetUpdate (dataset_id : String) (schema : SchemaVal) (tags : TagsVal)
      (embedding : List ℚ)
  | rowUpsert (rows : List RowRec)
deriving DecidableEq

/-- Whether an event is the dataset-record update. -/
def isDatasetUpdate : StoreEvent → Bool
  | StoreEvent.datasetUpdate _ _ _ _ => true
  | StoreEvent.rowUpsert _ => false

/-- Whether an event is the row upsert. -/
def isRowUpsert : StoreEvent → Bool
  | StoreEvent.datasetUpdate _ _ _ _ => false
  | StoreEvent.rowUpsert _ => true

/-- The environment a `process_dataset` run executes against: what
`download_file` produces, how the embedding provider answers, how the
two datastore calls behave, and the outcome of the paginated
spreadsheet path.  `updateExec` models
`supabase.table("datasets").update(...).execute()`: `error` means the
call raised (nothing written), `ok b` means it executed with `b`
recording whether `response.data` is non-empty (rows actually
affected).  `upsertExec` models
`supabase.table("dataset_rows").upsert(rows).execute()` the same way.
`xlsxResult` abstracts `process_xsl_with_batching` (the `.xls`/`.xlsx`
pagination loop), which the claims exclude as the paginated path. -/
structure PyEnv where
  downloaded : Except PErr SourceFile
  provider : Provider
  updateExec : Except PErr Bool
  upsertExec : Except PErr Unit
  xlsxResult : Except PErr PipeOut

/-- `update_supabase_dataset`: execute the dataset-record update; if the
response reports no affected rows, raise.  The write is committed
exactly when the call executed and affected rows. -/
def update_supabase_dataset (env : PyEnv) (dataset_id : String)
    (schema : SchemaVal) (tags : TagsVal) (embedding : List ℚ) :
    Except PErr Unit × List StoreEvent :=
  match env.updateExec with
  | Except.error e => (Except.error e, [])
  | Except.ok true =>
      (Except.ok (), [StoreEvent.datasetUpdate dataset_id schema tags embedding])
  | Except.ok false => (Except.error PErr.persistenceFailure, [])

/-- `insert_rows_into_supabase`: execute the row upsert; a raising call
commits nothing.  When the call succeeds the rows are committed — and
the next line, `print("Rows successfully inserted into dataset_rows!"
+ response.count)`, then raises `TypeError` unconditionally (`str`
concatenated with `response.count`, an `Optional[int]`), so the
function never returns normally: a successful upsert commits the rows
and raises. -/
def insert_rows_into_supabase (env : PyEnv) (rows : List RowRec) :
    Except PErr Unit × List StoreEvent :=
  match env.upsertExec with
  | Except.error e => (Except.error e, [])
  | Except.ok _ => (Except.error PErr.typeError, [StoreEvent.rowUpsert rows])

/-- The extension dispatch of `process_dataset`: download, then select
the processing path by file extension, raising
`ValueError(f"Unsupported file type: ...")` on anything else. -/
def run_pipeline (env : PyEnv) (dataset_id : String) : Except PErr PipeOut :=
  match env.downloaded with
  | Except.error e => Except.error e
  | Except.ok f =>
    if f.ext = ".csv" then
      process_csv_with_batching env.provider f.df dataset_id 50 50 1000000
    else if f.ext = ".pdf" then
      process_pdf env.provider f.text dataset_id 1000
    else if f.ext = ".md" ∨ f.ext = ".txt" then
      process_text_or_markdown env.provider f.text dataset_id 1000
    else if f.ext = ".xls" ∨ f.ext = ".xlsx" then
      env.xlsxResult
    else
      Except.error (PErr.unsupportedFileType f.ext)

/-- The body of `process_dataset`'s `try` block: run the pipeline, then
update the `datasets` record, then upsert the rows, propagating the
first raised error together with the datastore writes committed up to
that point. -/
def process_dataset_inner (env : PyEnv) (dataset_id : String) :
    Except PErr Unit × List StoreEvent :=
  match run_pipeline env dataset_id with
  | Except.error e => (Except.error e, [])
  | Except.ok out =>
    match update_supabase_dataset env dataset_id out.2.2.1 out.2.2.2 out.2.1 with
    | (Except.error e, ev) => (Except.error e, ev)
    | (Except.ok _, ev) =>
      match insert_rows_into_supabase env out.1 with
      | (Except.error e, ev') => (Except.error e, ev ++ ev')
      | (Except.ok _, ev') => (Except.ok (), ev ++ ev')

/-- `process_dataset`: the whole body runs under
`try: ... except Exception as e: print(...)` — a raised error is caught
at the top, reported only as the logged `some e`, and never propagated. -/
def process_dataset (env : PyEnv) (dataset_id : String) :
    Option PErr × List StoreEvent :=
  match process_dataset_inner env dataset_id with
  | (Except.error e, ev) => (some e, ev)
  | (Except.ok _, ev) => (none, ev)

/-- A small concrete dataframe (three rows, one column) used to
instantiate the chunker theorems. -/
def dfW : DataFrame :=
  { columns := [(['c'], ['i', 'n', 't'])]
    rows := [[some ['1']], [some ['2']], [none]] }

/-- A chunk whose content is exactly 200 whitespace-delimited words,
used to instantiate the throttle-trigger example
(tpm_limit = 100 → wait = 120 s). -/
def c200 : Chunk :=
  { dataset_id := "d", content := (List.replicate 200 ['a', ' ']).flatten
    metadata := none }

/-- A chunk whose content is far longer than `MAX_TOKENS`, used to
instantiate the no-truncation property of the batched path. -/
def bigChunk : Chunk :=
  { dataset_id := "d", content := List.replicate 9000 'x', metadata := none }

/-- An environment whose downloaded file has the unsupported `.docx`
extension. -/
def envDocx : PyEnv :=
  { downloaded := Except.ok { ext := ".docx", df := dfW, text := [] }
    provider := fun _ xs => Except.ok (xs.map (fun _ => ([] : List ℚ)))
    updateExec := Except.ok true
    upsertExec := Except.ok ()
    xlsxResult := Except.error PErr.embeddingProviderFailure }

/-- An environment in which a `.csv` run embeds fine and the dataset
update commits, but the row upsert raises. -/
def envC3 : PyEnv :=
  { downloaded := Except.ok { ext := ".csv", df := dfW, text := [] }
    provider := fun _ xs => Except.ok (xs.map (fun _ => ([0] : List ℚ)))
    updateExec := Except.ok true
    upsertExec := Except.error PErr.persistenceFailure
    xlsxResult := Except.error PErr.embeddingProviderFailure }

/-- An environment in which a `.csv` run embeds fine and both datastore
calls execute successfully (the run then still fails on the
`TypeError` in the upsert's success log line). -/
def envCommit : PyEnv :=
  { downloaded := Except.ok { ext := ".csv", df := dfW, text := [] }
    provider := fun _ xs => Except.ok (xs.map (fun _ => ([0] : List ℚ)))
    updateExec := Except.ok true
    upsertExec := Except.ok ()
    xlsxResult := Except.error PErr.embeddingProviderFailure }

/- ### Theorems ### -/

theorem le_ceil_mul (L W : Nat) (hW : W ≠ 0) : L ≤ ((L + W - 1) / W) * W := by
  have h1 := Nat.div_add_mod (L + W - 1) W
  have h2 : (L + W - 1) % W < W := Nat.mod_lt _ (Nat.pos_of_ne_zero hW)
  have h3 : W * ((L + W - 1) / W) = ((L + W - 1) / W) * W := Nat.mul_comm _ _
  omega

theorem ceil_count_succ (L a bs : Nat) (hbs : bs ≠ 0) (ha : a < L) :
    (L - a + bs - 1) / bs = (L - (a + bs) + bs - 1) / bs + 1 := by
  have hbs' : 0 < bs := Nat.pos_of_ne_zero hbs
  rcases le_or_lt bs (L - a) with h | h
  · have e1 : L - a + bs - 1 = (L - a - 1) + bs := by omega
    have e2 : L - (a + bs) + bs - 1 = L - a - 1 := by omega
    rw [e1, e2, Nat.add_div_right _ hbs']
  · have e1 : L - a + bs - 1 = (L - a - 1) + bs := by omega
    have e2 : L - (a + bs) + bs - 1 = bs - 1 := by omega
    rw [e1, e2, Nat.add_div_right _ hbs',
        Nat.div_eq_of_lt (show L - a - 1 < bs by omega),
        Nat.div_eq_of_lt (show bs - 1 < bs by omega)]

theorem ceil_eq_zero_iff (n bs : Nat) (hbs : bs ≠ 0) :
    (n + bs - 1) / bs = 0 ↔ n = 0 := by
  rw [Nat.div_eq_zero_iff (Nat.pos_of_ne_zero hbs)]
  omega

/-- C4: for non-empty tabular input with `R` rows and chunk size
`C > 0`, the batched CSV chunker produces exactly `⌈R/C⌉` chunks, chunk
`k` carries metadata `(k*C, min ((k+1)*C) R)`, and those half-open
ranges cover `[0, R)` without overlap. -/
theorem csv_chunker_partition (dataset_id : String) (df : DataFrame) (C : Nat)
    (hR : df.rows.length ≠ 0) (hC : C ≠ 0) :
    (csv_chunks dataset_id df C).length = (df.rows.length + C - 1) / C
  ∧ (∀ k, (hk : k < (csv_chunks dataset_id df C).length) →
      ((csv_chunks dataset_id df C).get ⟨k, hk⟩).metadata
        = some (k * C, min ((k + 1) * C) df.rows.length))
  ∧ (∀ j, j < df.rows.length →
      ∃ k, k < (csv_chunks dataset_id df C).length ∧
        k * C ≤ j ∧ j < min ((k + 1) * C) df.rows.length)
  ∧ (∀ k k' j, k ≠ k' →
      ¬(k * C ≤ j ∧ j < min ((k + 1) * C) df.rows.length ∧
        k' * C ≤ j ∧ j < min ((k' + 1) * C) df.rows.length)) := by
  have hC' : 0 < C := Nat.pos_of_ne_zero hC
  have hlen : (csv_chunks dataset_id df C).length
      = (df.rows.length + C - 1) / C := by
    unfold csv_chunks pyRange
    rw [List.map_map, List.length_map, List.length_range, Nat.sub_zero]
  refine ⟨hlen, ?_, ?_, ?_⟩
  · intro k hk
    rw [List.get_eq_getElem]
    simp only [csv_chunks, pyRange, List.map_map, List.getElem_map,
      List.getElem_range, Nat.zero_add, Nat.succ_mul, Function.comp_apply]
  · intro j hj
    refine ⟨j / C, ?_, Nat.div_mul_le_self j C, ?_⟩
    · rw [hlen]
      exact (Nat.div_lt_iff_lt_mul hC').2
        (lt_of_lt_of_le hj (le_ceil_mul df.rows.length C hC))
    · refine lt_min ?_ hj
      have h1 := Nat.div_add_mod j C
      have h2 : j % C < C := Nat.mod_lt _ hC'
      have h3 : C * (j / C) = (j / C) * C := Nat.mul_comm _ _
      have h4 : (j / C + 1) * C = (j / C) * C + C := Nat.succ_mul _ _
      omega
  · intro k k' j hkk hconj
    obtain ⟨h1, h2, h3, h4⟩ := hconj
    have h2' : j < (k + 1) * C := lt_of_lt_of_le h2 (min_le_left _ _)
    have h4' : j < (k' + 1) * C := lt_of_lt_of_le h4 (min_le_left _ _)
    rcases Nat.lt_or_ge k k' with h | h
    · have hle : (k + 1) * C ≤ k' * C := Nat.mul_le_mul_right C (by omega)
      exact absurd (lt_of_lt_of_le h2' (le_trans hle h3)) (lt_irrefl j)
    · have hk'k : k' < k := by omega
      have hle : (k' + 1) * C ≤ k * C := Nat.mul_le_mul_right C (by omega)
      exact absurd (lt_of_lt_of_le h4' (le_trans hle h1)) (lt_irrefl j)

theorem csv_chunker_partition_witness :
    dfW.rows.length ≠ 0 ∧ (2 : Nat) ≠ 0
  ∧ (csv_chunks "d" dfW 2).length = (dfW.rows.length + 2 - 1) / 2 :=
  ⟨by decide, by decide,
   (csv_chunker_partition "d" dfW 2 (by decide) (by decide)).1⟩

theorem flatten_slices (W : Nat) :
    ∀ (m : Nat) (c : List Char), c.length ≤ m * W →
      ((List.range m).map (fun k => (c.drop (k * W)).take W)).flatten = c := by
  intro m
  induction m with
  | zero =>
    intro c hc
    have hc0 : c = [] := List.eq_nil_of_length_eq_zero (by omega)
    subst hc0
    rfl
  | succ m ih =>
    intro c hc
    rw [List.range_succ_eq_map, List.map_cons, List.map_map]
    have hmap : (List.map ((fun k => (c.drop (k * W)).take W) ∘ Nat.succ)
          (List.range m))
        = (List.range m).map (fun k => (((c.drop W).drop (k * W))).take W) := by
      refine List.map_congr_left (fun k _ => ?_)
      show (c.drop (Nat.succ k * W)).take W = ((c.drop W).drop (k * W)).take W
      rw [List.drop_drop, Nat.succ_mul, Nat.add_comm]
    rw [hmap, List.flatten_cons]
    rw [ih (c.drop W) (by rw [List.length_drop]; rw [Nat.succ_mul] at hc; omega)]
    rw [Nat.zero_mul, List.drop_zero, List.take_append_drop]

/-- C5: for non-empty text of length `L` and window size `W > 0`, the
unstructured-text chunker yields exactly `⌈L/W⌉` windows, chunk `k` has
length `min W (L - k*W)` (so every chunk but possibly the last has
length exactly `W`), and concatenating the windows in order
reconstructs the text exactly. -/
theorem text_chunker_reconstruction (content : List Char) (W : Nat)
    (hL : content ≠ []) (hW : W ≠ 0) :
    (sliceText content W).length = (content.length + W - 1) / W
  ∧ (sliceText content W).flatten = content
  ∧ (∀ k, (hk : k < (sliceText content W).length) →
      ((sliceText content W).get ⟨k, hk⟩).length
        = min W (content.length - k * W))
  ∧ (∀ k, (hk : k < (sliceText content W).length) →
      k + 1 < (sliceText content W).length →
      ((sliceText content W).get ⟨k, hk⟩).length = W) := by
  have hnf : sliceText content W
      = (List.range ((content.length + W - 1) / W)).map
          (fun k => (content.drop (k * W)).take W) := by
    unfold sliceText pyRange
    rw [Nat.sub_zero, List.map_map]
    refine List.map_congr_left (fun k _ => ?_)
    show (content.drop (0 + k * W)).take W = (content.drop (k * W)).take W
    rw [Nat.zero_add]
  have hlen : (sliceText content W).length
      = (content.length + W - 1) / W := by
    rw [hnf, List.length_map, List.length_range]
  have hget : ∀ k, (hk : k < (sliceText content W).length) →
      ((sliceText content W).get ⟨k, hk⟩).length
        = min W (content.length - k * W) := by
    intro k hk
    rw [List.get_eq_getElem]
    have hk' : k < ((sliceText content W).length) := hk
    simp only [hnf, List.getElem_map, List.getElem_range,
      List.length_take, List.length_drop]
  refine ⟨hlen, ?_, hget, ?_⟩
  · rw [hnf]
    exact flatten_slices W _ content (le_ceil_mul content.length W hW)
  · intro k hk hk1
    rw [hget k hk]
    have hM : k + 1 < (content.length + W - 1) / W := by rw [← hlen]; exact hk1
    have h1 : ((content.length + W - 1) / W) * W ≤ content.length + W - 1 :=
      Nat.div_mul_le_self _ _
    have h2 : (k + 2) * W ≤ ((content.length + W - 1) / W) * W :=
      Nat.mul_le_mul_right W (by omega)
    have h3 : (k + 2) * W = k * W + W + W := by
      rw [show k + 2 = (k + 1) + 1 from rfl, Nat.succ_mul, Nat.succ_mul]
    have h4 : 0 < W := Nat.pos_of_ne_zero hW
    have h5 : W ≤ content.length - k * W := by omega
    exact min_eq_left h5

theorem text_chunker_reconstruction_witness :
    ("abcde".toList ≠ []) ∧ (2 : Nat) ≠ 0
  ∧ (sliceText "abcde".toList 2).flatten = "abcde".toList :=
  ⟨by decide, by decide,
   (text_chunker_reconstruction "abcde".toList 2 (by decide) (by decide)).2.1⟩

theorem pyRange_zero_succ (L bs : Nat) (hbs : bs ≠ 0) (hL : 0 < L) :
    pyRange 0 L bs = 0 :: (pyRange 0 (L - bs) bs).map (fun i => i + bs) := by
  unfold pyRange
  rw [Nat.sub_zero, Nat.sub_zero]
  have hcount : (L + bs - 1) / bs = (L - bs + bs - 1) / bs + 1 := by
    have h := ceil_count_succ L 0 bs hbs hL
    rw [Nat.sub_zero, Nat.zero_add] at h
    exact h
  rw [hcount, List.range_succ_eq_map, List.map_cons, List.map_map, List.map_map]
  refine congrArg₂ List.cons (by simp) ?_
  refine List.map_congr_left (fun k _ => ?_)
  show 0 + Nat.succ k * bs = (0 + k * bs) + bs
  rw [Nat.zero_add, Nat.zero_add, Nat.succ_mul]

theorem batches_nil (bs : Nat) (hbs : bs ≠ 0) : batches bs ([] : List Chunk) = [] := by
  unfold batches pyRange
  rw [List.length_nil, Nat.sub_zero, Nat.zero_add,
    Nat.div_eq_of_lt (show bs - 1 < bs by omega)]
  rfl

theorem batches_cons (bs : Nat) (hbs : bs ≠ 0) (l : List Chunk) (hl : l ≠ []) :
    batches bs l = l.take bs :: batches bs (l.drop bs) := by
  show (pyRange 0 l.length bs).map (fun i => (l.drop i).take bs) = _
  rw [pyRange_zero_succ l.length bs hbs (List.length_pos.2 hl)]
  rw [List.map_cons, List.map_map]
  refine congrArg₂ List.cons (by rw [List.drop_zero]) ?_
  show (pyRange 0 (l.length - bs) bs).map
      ((fun i => (l.drop i).take bs) ∘ (fun i => i + bs)) = batches bs (l.drop bs)
  unfold batches
  rw [List.length_drop]
  refine List.map_congr_left (fun i _ => ?_)
  show (l.drop (i + bs)).take bs = ((l.drop bs).drop i).take bs
  rw [List.drop_drop, Nat.add_comm]

theorem batches_flatten (bs : Nat) (hbs : bs ≠ 0) (l : List Chunk) :
    (batches bs l).flatten = l := by
  suffices H : ∀ n (l : List Chunk), l.length ≤ n → (batches bs l).flatten = l from
    H l.length l le_rfl
  intro n
  induction n with
  | zero =>
    intro l h
    have h0 : l = [] := List.eq_nil_of_length_eq_zero (by omega)
    subst h0
    rw [batches_nil bs hbs]
    rfl
  | succ n ih =>
    intro l h
    by_cases hl : l = []
    · subst hl
      rw [batches_nil bs hbs]
      rfl
    · rw [batches_cons bs hbs l hl, List.flatten_cons,
        ih (l.drop bs) (by rw [List.length_drop]; omega),
        List.take_append_drop]

theorem grwlGo_spec (embed : List Char → List ℚ) (chunks : List Chunk)
    (bs tpm : Nat) (mdl : String) (hbs : bs ≠ 0) :
    ∀ (M a : Nat), M = (chunks.length - a + bs - 1) / bs →
      grwlGo (fun _ xs => Except.ok (xs.map embed)) chunks bs tpm mdl
          ((List.range M).map (fun k => a + k * bs))
        = (Except.ok ((chunks.drop a).map (fun c => embed c.content)),
           ((batches bs (chunks.drop a)).map (perBatchTrace tpm)).flatten) := by
  intro M
  induction M with
  | zero =>
    intro a hM
    have hdrop : chunks.drop a = [] := by
      apply List.drop_eq_nil_of_le
      have h := (ceil_eq_zero_iff (chunks.length - a) bs hbs).1 hM.symm
      omega
    rw [List.range_zero, List.map_nil, hdrop, batches_nil bs hbs]
    rfl
  | succ M ih =>
    intro a hM
    have ha : a < chunks.length := by
      by_contra hcon
      push_neg at hcon
      have h0 : chunks.length - a = 0 := by omega
      rw [h0, Nat.zero_add, Nat.div_eq_of_lt (show bs - 1 < bs by omega)] at hM
      omega
    have hM' : M = (chunks.length - (a + bs) + bs - 1) / bs := by
      have h := ceil_count_succ chunks.length a bs hbs ha
      omega
    have hne : chunks.drop a ≠ [] := by
      rw [← List.length_pos, List.length_drop]
      omega
    rw [List.range_succ_eq_map, List.map_cons, List.map_map]
    have hshift : (List.map ((fun k => a + k * bs) ∘ Nat.succ) (List.range M))
        = (List.range M).map (fun k => (a + bs) + k * bs) := by
      refine List.map_congr_left (fun k _ => ?_)
      show a + Nat.succ k * bs = (a + bs) + k * bs
      rw [Nat.succ_mul]
      omega
    rw [hshift, Nat.zero_mul, Nat.add_zero]
    rw [grwlGo, ih (a + bs) hM']
    simp only [List.length_map, lt_irrefl, if_false]
    rw [batches_cons bs hbs _ hne, List.map_cons, List.flatten_cons]
    refine congrArg₂ Prod.mk ?_ ?_
    · have hsplit : (chunks.drop a).take bs ++ chunks.drop (a + bs) = chunks.drop a := by
        rw [show chunks.drop (a + bs) = (chunks.drop a).drop bs by
          rw [List.drop_drop]]
        exact List.take_append_drop bs (chunks.drop a)
      rw [List.map_map]
      conv_rhs => rw [← hsplit, List.map_append]
      rfl
    · unfold perBatchTrace
      rw [List.drop_drop, List.append_assoc]
      rfl

theorem grwl_run_spec (provider : Provider) (embed : List Char → List ℚ)
    (chunks : List Chunk) (bs tpm : Nat) (mdl : String) (hbs : bs ≠ 0)
    (hp : ∀ m xs, provider m xs = Except.ok (xs.map embed)) :
    generate_embeddings_with_rate_limit provider chunks bs mdl tpm
      = (Except.ok (chunks.map (fun c => embed c.content)),
         ((batches bs chunks).map (perBatchTrace tpm)).flatten) := by
  have hp' : provider = fun _ xs => Except.ok (xs.map embed) :=
    funext fun m => funext fun xs => hp m xs
  subst hp'
  unfold generate_embeddings_with_rate_limit pyRange
  have hmain := grwlGo_spec embed chunks bs tpm mdl hbs
      ((chunks.length - 0 + bs - 1) / bs) 0 rfl
  rw [hmain, List.drop_zero]

/-- C1: with a provider that answers every call with one embedding per
input string in submission order, the rate-limited batcher returns
exactly one embedding per submitted chunk, and the `k`-th returned
embedding is the embedding of the `k`-th chunk's content. -/
theorem batcher_one_embedding_per_chunk (provider : Provider)
    (embed : List Char → List ℚ) (chunks : List Chunk) (bs tpm : Nat)
    (mdl : String) (hbs : bs ≠ 0) (htpm : tpm ≠ 0)
    (hp : ∀ m xs, provider m xs = Except.ok (xs.map embed)) :
    ∃ es, (generate_embeddings_with_rate_limit provider chunks bs mdl tpm).1
        = Except.ok es
      ∧ es.length = chunks.length
      ∧ ∀ k, (hk : k < chunks.length) →
          es[k]? = some (embed ((chunks.get ⟨k, hk⟩).content)) := by
  refine ⟨chunks.map (fun c => embed c.content), ?_, List.length_map _ _, ?_⟩
  · rw [grwl_run_spec provider embed chunks bs tpm mdl hbs hp]
  · intro k hk
    rw [List.getElem?_map, List.getElem?_eq_getElem hk, List.get_eq_getElem]
    rfl

theorem batcher_one_embedding_per_chunk_witness :
    ((50 : Nat) ≠ 0 ∧ (1000000 : Nat) ≠ 0)
  ∧ ∃ es, (generate_embeddings_with_rate_limit
        (fun _ xs => Except.ok (xs.map (fun _ => ([1] : List ℚ))))
        [Chunk.mk "d" "hi".toList none] 50 OPENAI_EMBEDDING_MODEL 1000000).1
        = Except.ok es
      ∧ es.length = [Chunk.mk "d" "hi".toList none].length
      ∧ ∀ k, (hk : k < [Chunk.mk "d" "hi".toList none].length) →
          es[k]? = some ([1] : List ℚ) :=
  ⟨⟨by decide, by decide⟩,
   batcher_one_embedding_per_chunk _ (fun _ => ([1] : List ℚ))
     [Chunk.mk "d" "hi".toList none] 50 1000000 OPENAI_EMBEDDING_MODEL
     (by decide) (by decide) (fun _ _ => rfl)⟩

/-- C2: with a well-behaved provider, the batcher's event trace is
exactly, batch by batch: a sleep of `(cost / tpm_limit) * 60` seconds
when and only when the batch's summed whitespace-word-count estimate
`cost` exceeds `tpm_limit`, followed by the provider call with that
batch's content strings. -/
theorem batcher_throttle_trace (provider : Provider)
    (embed : List Char → List ℚ) (chunks : List Chunk) (bs tpm : Nat)
    (mdl : String) (hbs : bs ≠ 0) (htpm : tpm ≠ 0)
    (hp : ∀ m xs, provider m xs = Except.ok (xs.map embed)) :
    (generate_embeddings_with_rate_limit provider chunks bs mdl tpm).2
      = ((batches bs chunks).map (perBatchTrace tpm)).flatten := by
  rw [grwl_run_spec provider embed chunks bs tpm mdl hbs hp]

set_option maxRecDepth 100000 in
theorem batcher_throttle_trace_witness :
    ((50 : Nat) ≠ 0 ∧ (100 : Nat) ≠ 0)
  ∧ (generate_embeddings_with_rate_limit
        (fun _ xs => Except.ok (xs.map (fun _ => ([] : List ℚ))))
        [c200] 50 OPENAI_EMBEDDING_MODEL 100).2
      = ((batches 50 [c200]).map (perBatchTrace 100)).flatten
  ∧ ((batches 50 [c200]).map (perBatchTrace 100)).flatten
      = [BatchEvent.sleep 120, BatchEvent.call [c200.content]] :=
  ⟨⟨by decide, by decide⟩,
   batcher_throttle_trace _ (fun _ => ([] : List ℚ)) [c200] 50 100
     OPENAI_EMBEDDING_MODEL (by decide) (by decide) (fun _ _ => rfl),
   by
     rw [show batches 50 [c200] = [[c200]] from by decide]
     show perBatchTrace 100 [c200] ++ [] = _
     rw [List.append_nil]
     unfold perBatchTrace
     rw [show (([c200].map Chunk.content).map wordCount).sum = 200 from by decide]
     norm_num⟩

theorem filterMap_perBatchTrace (tpm : Nat) (L : List (List Chunk)) :
    ((L.map (perBatchTrace tpm)).flatten).filterMap callInputs
      = L.map (fun b => b.map Chunk.content) := by
  induction L with
  | nil => rfl
  | cons b L ih =>
    rw [List.map_cons, List.flatten_cons, List.filterMap_append, ih]
    show (perBatchTrace tpm b).filterMap callInputs ++ _ = _
    unfold perBatchTrace
    by_cases hcost : ((b.map Chunk.content).map wordCount).sum > tpm
    · rw [if_pos hcost]
      rfl
    · rw [if_neg hcost]
      rfl

/-- C10: in the rate-limited batched path every provider call submits
its batch's content strings verbatim — the submitted strings,
concatenated across calls, are exactly the chunk contents in order,
with no length test and no truncation. -/
theorem batched_path_no_truncation (provider : Provider)
    (embed : List Char → List ℚ) (chunks : List Chunk) (bs tpm : Nat)
    (mdl : String) (hbs : bs ≠ 0) (htpm : tpm ≠ 0)
    (hp : ∀ m xs, provider m xs = Except.ok (xs.map embed)) :
    ((generate_embeddings_with_rate_limit provider chunks bs mdl tpm).2).filterMap
        callInputs
      = (batches bs chunks).map (fun b => b.map Chunk.content)
  ∧ (((generate_embeddings_with_rate_limit provider chunks bs mdl tpm).2).filterMap
        callInputs).flatten = chunks.map Chunk.content := by
  have h1 : ((generate_embeddings_with_rate_limit provider chunks bs mdl tpm).2).filterMap
      callInputs = (batches bs chunks).map (fun b => b.map Chunk.content) := by
    rw [grwl_run_spec provider embed chunks bs tpm mdl hbs hp]
    exact filterMap_perBatchTrace tpm (batches bs chunks)
  refine ⟨h1, ?_⟩
  rw [h1, ← List.map_flatten, batches_flatten bs hbs]

theorem batched_path_no_truncation_witness :
    ((50 : Nat) ≠ 0 ∧ (1000000 : Nat) ≠ 0)
  ∧ (((generate_embeddings_with_rate_limit
        (fun _ xs => Except.ok (xs.map (fun _ => ([] : List ℚ))))
        [bigChunk] 50 OPENAI_EMBEDDING_MODEL 1000000).2).filterMap
          callInputs).flatten = [bigChunk].map Chunk.content :=
  ⟨⟨by decide, by decide⟩,
   (batched_path_no_truncation _ (fun _ => ([] : List ℚ)) [bigChunk] 50 1000000
     OPENAI_EMBEDDING_MODEL (by decide) (by decide) (fun _ _ => rfl)).2⟩

/-- C6: on a non-empty list of vectors all of dimension `D`, the
aggregator returns exactly one vector of dimension `D` whose `j`-th
component is the arithmetic mean — sum divided by the number of
vectors — of the inputs' `j`-th components. -/
theorem aggregate_embeddings_mean (embeddings : List (List ℚ)) (D : Nat)
    (hne : embeddings ≠ []) (hD : ∀ e ∈ embeddings, e.length = D) :
    (aggregate_embeddings embeddings).length = D
  ∧ ∀ j, j < D →
      (aggregate_embeddings embeddings)[j]?
        = some ((embeddings.map (fun e => e.getD j 0)).sum
            / (embeddings.length : ℚ)) := by
  have hhead : (embeddings.headD []).length = D := by
    cases embeddings with
    | nil => exact absurd rfl hne
    | cons e es => exact hD e (List.mem_cons_self e es)
  constructor
  · unfold aggregate_embeddings
    rw [List.length_map, List.length_range, hhead]
  · intro j hj
    unfold aggregate_embeddings
    rw [List.getElem?_map, List.getElem?_range (by rw [hhead]; exact hj)]
    rfl

theorem aggregate_embeddings_mean_witness :
    (([[1, 0], [0, 1]] : List (List ℚ)) ≠ [])
  ∧ (aggregate_embeddings [[1, 0], [0, 1]]).length = 2
  ∧ aggregate_embeddings ([[1, 0], [0, 1]] : List (List ℚ)) = [1/2, 1/2] := by
  refine ⟨by simp, ?_, ?_⟩
  · exact (aggregate_embeddings_mean [[1, 0], [0, 1]] 2 (by simp)
      (by intro e he; simp at he; rcases he with rfl | rfl <;> rfl)).1
  · unfold aggregate_embeddings
    norm_num [List.range_succ]

/-- C7: the per-chunk-without-batching path submits every chunk whose
length is at most `MAX_TOKENS` unchanged, truncates a longer chunk to
exactly its first `MAX_TOKENS` characters before submission, and — with
a provider answering each call — over-budget content never raises. -/
theorem per_chunk_truncation (provider : Provider)
    (embed : List Char → List ℚ) (chunks : List (List Char))
    (hp : ∀ s, provider OPENAI_EMBEDDING_MODEL [s] = Except.ok [embed s]) :
    (generate_embeddings_for_chunks provider chunks).2
      = chunks.map (fun c => if c.length > MAX_TOKENS then c.take MAX_TOKENS else c)
  ∧ (∀ c : List Char, c.length > MAX_TOKENS →
      (if c.length > MAX_TOKENS then c.take MAX_TOKENS else c) = c.take MAX_TOKENS
      ∧ (c.take MAX_TOKENS).length = MAX_TOKENS)
  ∧ (∀ c : List Char, ¬(c.length > MAX_TOKENS) →
      (if c.length > MAX_TOKENS then c.take MAX_TOKENS else c) = c)
  ∧ ∃ es, (generate_embeddings_for_chunks provider chunks).1 = Except.ok es := by
  have main : ∀ cs : List (List Char),
      generate_embeddings_for_chunks provider cs
        = (Except.ok (cs.map (fun c =>
              embed (if c.length > MAX_TOKENS then c.take MAX_TOKENS else c))),
           cs.map (fun c => if c.length > MAX_TOKENS then c.take MAX_TOKENS else c)) := by
    intro cs
    induction cs with
    | nil => rfl
    | cons c rest ih =>
      show (match provider OPENAI_EMBEDDING_MODEL
            [if c.length > MAX_TOKENS then c.take MAX_TOKENS else c] with
        | Except.error e =>
            (Except.error e, [if c.length > MAX_TOKENS then c.take MAX_TOKENS else c])
        | Except.ok [] => (Except.error PErr.embeddingProviderFailure,
            [if c.length > MAX_TOKENS then c.take MAX_TOKENS else c])
        | Except.ok (e :: _) =>
          match generate_embeddings_for_chunks provider rest with
          | (Except.error err, subs) => (Except.error err,
              (if c.length > MAX_TOKENS then c.take MAX_TOKENS else c) :: subs)
          | (Except.ok es, subs) => (Except.ok (e :: es),
              (if c.length > MAX_TOKENS then c.take MAX_TOKENS else c) :: subs)) = _
      rw [hp, ih]
      rfl
  refine ⟨by rw [main], ?_, ?_, ?_⟩
  · intro c hc
    refine ⟨if_pos hc, ?_⟩
    rw [List.length_take]
    exact min_eq_left (le_of_lt hc)
  · intro c hc
    exact if_neg hc
  · exact ⟨_, by rw [main]⟩

theorem per_chunk_truncation_witness :
    (generate_embeddings_for_chunks
        (fun _ xs => Except.ok (xs.map (fun _ => ([] : List ℚ))))
        [List.replicate 9000 'z']).2
      = [List.replicate 9000 'z'].map
          (fun c => if c.length > MAX_TOKENS then c.take MAX_TOKENS else c) :=
  (per_chunk_truncation _ (fun _ => ([] : List ℚ)) [List.replicate 9000 'z']
    (fun _ => rfl)).1

/-- C9: evaluating the code at the failing input — an empty document
yields zero chunks in both chunkers, but `aggregate_embeddings` applied
to the empty embedding list does not fail: it silently returns a
degenerate value (the empty vector here; a silent `nan` under numpy)
instead of raising the explicit `EmptyDocument` failure the claim
requires. -/
theorem empty_document_behavior :
    sliceText [] 1000 = []
  ∧ csv_chunks "d" { columns := [], rows := [] } 50 = []
  ∧ aggregate_embeddings [] = [] :=
  ⟨rfl, rfl, rfl⟩

/-- C8: when the downloaded file's extension is outside
{.csv, .pdf, .md, .txt, .xls, .xlsx}, the run fails with
`UnsupportedFileType` (caught at the top of the orchestrator) and zero
calls are made to the persistence collaborator. -/
theorem unsupported_extension_aborts (env : PyEnv) (dataset_id : String)
    (f : SourceFile) (hdl : env.downloaded = Except.ok f)
    (hext : f.ext ∉ ([".csv", ".pdf", ".md", ".txt", ".xls", ".xlsx"] : List String)) :
    process_dataset env dataset_id
      = (some (PErr.unsupportedFileType f.ext), []) := by
  simp only [List.mem_cons, List.not_mem_nil, or_false, not_or] at hext
  obtain ⟨h1, h2, h3, h4, h5, h6⟩ := hext
  have hrp : run_pipeline env dataset_id
      = Except.error (PErr.unsupportedFileType f.ext) := by
    unfold run_pipeline
    simp only [hdl]
    rw [if_neg h1, if_neg h2, if_neg (not_or.2 ⟨h3, h4⟩), if_neg (not_or.2 ⟨h5, h6⟩)]
  unfold process_dataset process_dataset_inner
  simp only [hrp]

theorem unsupported_extension_aborts_witness :
    process_dataset envDocx "d"
      = (some (PErr.unsupportedFileType ".docx"), []) :=
  unsupported_extension_aborts envDocx "d"
    { ext := ".docx", df := dfW, text := [] } rfl (by decide)

theorem process_dataset_shape (env : PyEnv) (dataset_id : String) :
    (∃ e, process_dataset env dataset_id = (some e, []))
  ∨ (∃ e s t em, process_dataset env dataset_id
        = (some e, [StoreEvent.datasetUpdate dataset_id s t em]))
  ∨ (∃ s t em rows, process_dataset env dataset_id
        = (some PErr.typeError,
           [StoreEvent.datasetUpdate dataset_id s t em,
            StoreEvent.rowUpsert rows])) := by
  unfold process_dataset process_dataset_inner update_supabase_dataset
    insert_rows_into_supabase
  cases hrp : run_pipeline env dataset_id with
  | error e' => exact Or.inl ⟨e', rfl⟩
  | ok out =>
    cases hu : env.updateExec with
    | error e2 => exact Or.inl ⟨e2, rfl⟩
    | ok b =>
      cases b with
      | false => exact Or.inl ⟨PErr.persistenceFailure, rfl⟩
      | true =>
        cases hup : env.upsertExec with
        | error e3 => exact Or.inr (Or.inl ⟨e3, _, _, _, rfl⟩)
        | ok u => exact Or.inr (Or.inr ⟨_, _, _, _, rfl⟩)

/-- C3 (amended): every error raised inside `process_dataset`'s body is
caught at the top of the orchestrator and reported only as the logged
value, never propagated; and rows are never committed without the
dataset-record update.  The rest of the original claim fails: a failed
run can leave the dataset update committed without rows when the upsert
raises (see the counterexample), and the source's own success path
raises a `TypeError` after committing both writes, so failure implies
nothing about the upsert either way. -/
theorem orchestrator_catch_and_commit_order (env : PyEnv) (dataset_id : String) :
    (∀ e ev, process_dataset_inner env dataset_id = (Except.error e, ev) →
        process_dataset env dataset_id = (some e, ev))
  ∧ ((process_dataset env dataset_id).2.filter isRowUpsert ≠ [] →
        (process_dataset env dataset_id).2.filter isDatasetUpdate ≠ []) := by
  refine ⟨fun e ev h => by unfold process_dataset; rw [h], ?_⟩
  intro hne
  rcases process_dataset_shape env dataset_id with
    ⟨e', hc⟩ | ⟨e', s, t, em, hc⟩ | ⟨s, t, em, rows, hc⟩
  · rw [hc] at hne
    exact absurd rfl hne
  · rw [hc] at hne
    exact absurd rfl hne
  · rw [hc]
    simp [isDatasetUpdate, isRowUpsert]

theorem envC3_outcome : ∃ s t em, process_dataset envC3 "d"
    = (some PErr.persistenceFailure, [StoreEvent.datasetUpdate "d" s t em]) := by
  have hg := grwl_run_spec envC3.provider (fun _ => ([0] : List ℚ))
      (csv_chunks "d" dfW 50) 50 1000000 OPENAI_EMBEDDING_MODEL
      (by decide) (fun _ _ => rfl)
  have hrp : run_pipeline envC3 "d"
      = Except.ok ((csv_chunks "d" dfW 50).zipWith
          (fun c e => RowRec.mk c.dataset_id c.content e c.metadata)
          ((csv_chunks "d" dfW 50).map (fun c => (fun _ => ([0] : List ℚ)) c.content)),
         aggregate_embeddings
           ((csv_chunks "d" dfW 50).map (fun c => (fun _ => ([0] : List ℚ)) c.content)),
         some dfW.columns, dfW.columns.map Prod.fst) := by
    unfold run_pipeline
    simp only [show envC3.downloaded
        = Except.ok { ext := ".csv", df := dfW, text := [] } from rfl]
    rw [if_pos trivial]
    simp only [process_csv_with_batching]
    rw [hg]
  refine ⟨some dfW.columns, dfW.columns.map Prod.fst,
    aggregate_embeddings ((csv_chunks "d" dfW 50).map (fun _ => ([0] : List ℚ))), ?_⟩
  unfold process_dataset process_dataset_inner update_supabase_dataset
    insert_rows_into_supabase
  rw [hrp]
  rfl

/-- C3 (counterexample): a concrete run in which the dataset update
commits and the row upsert then raises — the run fails, yet exactly one
of the two persistence writes happened (schema without rows), refuting
the claim that on failure the update and the upsert either both happen
or neither happens. -/
theorem orchestrator_partial_commit_possible :
    (process_dataset envC3 "d").1.isSome = true
  ∧ ((process_dataset envC3 "d").2.filter isDatasetUpdate).length = 1
  ∧ ((process_dataset envC3 "d").2.filter isRowUpsert).length = 0 := by
  obtain ⟨s, t, em, hc⟩ := envC3_outcome
  rw [hc]
  exact ⟨rfl, rfl, rfl⟩

theorem envCommit_outcome : ∃ s t em rows, process_dataset envCommit "d"
    = (some PErr.typeError,
       [StoreEvent.datasetUpdate "d" s t em, StoreEvent.rowUpsert rows]) := by
  have hg := grwl_run_spec envCommit.provider (fun _ => ([0] : List ℚ))
      (csv_chunks "d" dfW 50) 50 1000000 OPENAI_EMBEDDING_MODEL
      (by decide) (fun _ _ => rfl)
  have hrp : run_pipeline envCommit "d"
      = Except.ok ((csv_chunks "d" dfW 50).zipWith
          (fun c e => RowRec.mk c.dataset_id c.content e c.metadata)
          ((csv_chunks "d" dfW 50).map (fun c => (fun _ => ([0] : List ℚ)) c.content)),
         aggregate_embeddings
           ((csv_chunks "d" dfW 50).map (fun c => (fun _ => ([0] : List ℚ)) c.content)),
         some dfW.columns, dfW.columns.map Prod.fst) := by
    unfold run_pipeline
    simp only [show envCommit.downloaded
        = Except.ok { ext := ".csv", df := dfW, text := [] } from rfl]
    rw [if_pos trivial]
    simp only [process_csv_with_batching]
    rw [hg]
  refine ⟨some dfW.columns, dfW.columns.map Prod.fst,
    aggregate_embeddings ((csv_chunks "d" dfW 50).map (fun _ => ([0] : List ℚ))),
    (csv_chunks "d" dfW 50).zipWith
      (fun c e => RowRec.mk c.dataset_id c.content e c.metadata)
      ((csv_chunks "d" dfW 50).map (fun _ => ([0] : List ℚ))), ?_⟩
  unfold process_dataset process_dataset_inner update_supabase_dataset
    insert_rows_into_supabase
  rw [hrp]
  rfl

theorem orchestrator_catch_and_commit_order_witness :
    (process_dataset envCommit "d").2.filter isDatasetUpdate ≠ [] := by
  obtain ⟨s, t, em, rows, hc⟩ := envCommit_outcome
  refine (orchestrator_catch_and_commit_order envCommit "d").2 ?_
  rw [hc]
  simp [isRowUpsert]
